import Mathlib

/-!
Verification of the `pixiv_rs` network transport layer
(`src/network/bypass_sni.rs` and `src/network/mod.rs`) against its
natural-language specification.

The Rust code is shallowly embedded: pure functions become Lean
functions, the stateful client structs become Lean structures with
explicit state passing, and the actual network round trip is abstracted
as a function from the built request to a response.  External library
behaviour that the repository code relies on (the standard library's
`IpAddr` parser and `Display` rendering, `reqwest`'s per-host DNS
resolution override, the `md5` crate, `chrono` timestamp formatting) is
modelled faithfully from the documented behaviour of those libraries.
-/

set_option maxRecDepth 100000

deriving instance DecidableEq for Except

namespace PixivRs

/-! ## Model of Rust `std::net::IpAddr` parsing (`core::net::parser`)

`BypassSniClient::new` calls `ip.parse::<std::net::IpAddr>()`.  The
definitions below mirror the structure of the Rust standard-library
parser: `read_number` (checked arithmetic in the target integer type,
optional digit limit, optional leading-zero rejection), `read_separator`,
`read_ipv4_addr`, `read_groups` / `read_ipv6_addr`, and the
try-v4-then-v6 `read_ip_addr`, followed by the must-consume-all check of
`parse_with`.  Parsers take the remaining characters and return the
parsed value together with the unconsumed rest; `none` models the
atomic (position-restoring) failure of the Rust parser. -/

/-- Model of Rust `char::to_digit`. -/
def digitValue (radix : Nat) (c : Char) : Option Nat :=
  let d :=
    if '0' ≤ c ∧ c ≤ '9' then some (c.toNat - '0'.toNat)
    else if 'a' ≤ c ∧ c ≤ 'z' then some (c.toNat - 'a'.toNat + 10)
    else if 'A' ≤ c ∧ c ≤ 'Z' then some (c.toNat - 'A'.toNat + 10)
    else none
  match d with
  | some v => if v < radix then some v else none
  | none => none

/-- The digit-consuming loop of `Parser::read_number`.  `maxVal` is the
largest value of the Rust target integer type (`255` for `u8` octets,
`65535` for `u16` IPv6 groups); exceeding it models the `checked_mul` /
`checked_add` failure.  Returns the accumulated value, the number of
digits consumed, and the rest of the input. -/
def readNumberLoop (radix maxVal maxDigits : Nat) :
    List Char → Nat → Nat → Option (Nat × Nat × List Char)
  | [], acc, count => some (acc, count, [])
  | c :: rest, acc, count =>
    match digitValue radix c with
    | none => some (acc, count, c :: rest)
    | some d =>
      if maxVal < acc * radix then none
      else if maxVal < acc * radix + d then none
      else if maxDigits < count + 1 then none
      else readNumberLoop radix maxVal maxDigits rest (acc * radix + d) (count + 1)

/-- Model of `Parser::read_number`: at least one digit, at most
`maxDigits` digits, no leading zero unless `zeroPrefixOk`. -/
def readNumber (radix maxVal maxDigits : Nat) (zeroPrefixOk : Bool)
    (cs : List Char) : Option (Nat × List Char) :=
  let hasLeadingZero : Bool := cs.head? == some '0'
  match readNumberLoop radix maxVal maxDigits cs 0 0 with
  | none => none
  | some (n, count, rest) =>
    if count = 0 then none
    else if zeroPrefixOk = false ∧ hasLeadingZero = true ∧ 1 < count then none
    else some (n, rest)

/-- Model of `Parser::read_separator`: read the separator character
first unless this is the group at index 0. -/
def readSeparator {α : Type} (sep : Char) (needSep : Bool)
    (inner : List Char → Option (α × List Char))
    (cs : List Char) : Option (α × List Char) :=
  if needSep then
    match cs with
    | c :: rest => if c = sep then inner rest else none
    | [] => none
  else inner cs

/-- Model of `Parser::read_ipv4_addr`: four `u8` decimal groups
separated by dots, each at most three digits and with no leading
zeros. -/
def readIpv4 (cs : List Char) : Option ((Nat × Nat × Nat × Nat) × List Char) :=
  match readSeparator '.' false (readNumber 10 255 3 false) cs with
  | none => none
  | some (a, cs1) =>
    match readSeparator '.' true (readNumber 10 255 3 false) cs1 with
    | none => none
    | some (b, cs2) =>
      match readSeparator '.' true (readNumber 10 255 3 false) cs2 with
      | none => none
      | some (c, cs3) =>
        match readSeparator '.' true (readNumber 10 255 3 false) cs3 with
        | none => none
        | some (d, cs4) => some ((a, b, c, d), cs4)

/-- Model of the `read_groups` helper inside `read_ipv6_addr`.  The
first argument says whether a `:` separator is required before the next
group (i.e. whether the group index is positive); the second is the
number of group slots still available.  Returns the groups read, whether
a trailing embedded IPv4 address was read, and the rest of the input.
A trailing embedded IPv4 address is only attempted while at least two
slots remain. -/
def readGroups : Bool → Nat → List Char → List Nat × Bool × List Char
  | _, 0, cs => ([], false, cs)
  | needSep, slots + 1, cs =>
    match (if 1 ≤ slots then readSeparator ':' needSep readIpv4 cs else none) with
    | some ((a, b, c, d), rest) => ([a * 256 + b, c * 256 + d], true, rest)
    | none =>
      match readSeparator ':' needSep (readNumber 16 65535 4 true) cs with
      | some (g, rest) =>
        match readGroups true slots rest with
        | (gs, sawV4, rest2) => (g :: gs, sawV4, rest2)
      | none => ([], false, cs)

/-- Model of `Parser::read_ipv6_addr`: a head of up to eight groups,
optionally followed by `::` and a tail; `::` stands for the elided zero
groups.  An embedded IPv4 part is not allowed before the `::`.  The
result is the list of the eight 16-bit segments. -/
def readIpv6 (cs : List Char) : Option (List Nat × List Char) :=
  match readGroups false 8 cs with
  | (head, headV4, rest) =>
    if head.length = 8 then some (head, rest)
    else if headV4 then none
    else
      match rest with
      | ':' :: ':' :: rest2 =>
        match readGroups false (8 - (head.length + 1)) rest2 with
        | (tail, _, rest3) =>
          some (head ++ List.replicate (8 - head.length - tail.length) 0 ++ tail, rest3)
      | _ => none

/-- Model of Rust `std::net::IpAddr`: a parsed IPv4 or IPv6 address.
For `v6` the list holds the eight 16-bit segments. -/
inductive IpAddr where
  | v4 (a b c d : Nat)
  | v6 (segments : List Nat)
deriving DecidableEq, Repr

/-- Model of `Parser::read_ip_addr`: try IPv4 first, then IPv6. -/
def readIpAddr (cs : List Char) : Option (IpAddr × List Char) :=
  match readIpv4 cs with
  | some ((a, b, c, d), rest) => some (.v4 a b c d, rest)
  | none =>
    match readIpv6 cs with
    | some (segs, rest) => some (.v6 segs, rest)
    | none => none

/-- Model of `"...".parse::<std::net::IpAddr>()`: the parser must
consume the whole string (`Parser::parse_with`). -/
def parseIpAddr (s : String) : Option IpAddr :=
  match readIpAddr s.data with
  | some (ip, []) => some ip
  | _ => none

/-! ## Model of Rust `Display` for `IpAddr` -/

/-- Decimal digits of a `u8` value (used by `Display for Ipv4Addr`,
which writes each octet in decimal). -/
def decChars (n : Nat) : List Char :=
  if n < 10 then [Nat.digitChar n]
  else if n < 100 then [Nat.digitChar (n / 10), Nat.digitChar (n % 10)]
  else [Nat.digitChar (n / 100), Nat.digitChar (n / 10 % 10), Nat.digitChar (n % 10)]

/-- `Display for Ipv4Addr`: the four octets in decimal, dot separated. -/
def ipv4Chars (a b c d : Nat) : List Char :=
  decChars a ++ '.' :: decChars b ++ '.' :: decChars c ++ '.' :: decChars d

/-- Lowercase hex digits of a `u16` value, no leading zeros (Rust
`{:x}` formatting of an IPv6 segment). -/
def hexChars (n : Nat) : List Char :=
  if n < 16 then [Nat.digitChar n]
  else if n < 256 then [Nat.digitChar (n / 16), Nat.digitChar (n % 16)]
  else if n < 4096 then
    [Nat.digitChar (n / 256), Nat.digitChar (n / 16 % 16), Nat.digitChar (n % 16)]
  else
    [Nat.digitChar (n / 4096), Nat.digitChar (n / 256 % 16),
      Nat.digitChar (n / 16 % 16), Nat.digitChar (n % 16)]

/-- A run of zero segments, as in the `Span` struct local to
`Display for Ipv6Addr`. -/
structure ZeroSpan where
  start : Nat
  len : Nat
deriving DecidableEq, Repr

/-- The loop of `Display for Ipv6Addr` that finds the first longest run
of zero segments (a later run replaces the current best only when
strictly longer). -/
def zeroRunLoop : List Nat → Nat → ZeroSpan → ZeroSpan → ZeroSpan
  | [], _, _, longest => longest
  | s :: rest, i, current, longest =>
    if s = 0 then
      let current2 : ZeroSpan :=
        if current.len = 0 then { start := i, len := 1 }
        else { start := current.start, len := current.len + 1 }
      let longest2 : ZeroSpan := if longest.len < current2.len then current2 else longest
      zeroRunLoop rest (i + 1) current2 longest2
    else
      zeroRunLoop rest (i + 1) ⟨0, 0⟩ longest

/-- The first longest run of zero segments. -/
def zeroRun (segs : List Nat) : ZeroSpan := zeroRunLoop segs 0 ⟨0, 0⟩ ⟨0, 0⟩

/-- The `fmt_subslice` helper of `Display for Ipv6Addr`: segments
joined by `:`. -/
def joinColon : List (List Char) → List Char
  | [] => []
  | [g] => g
  | g :: rest => g ++ ':' :: joinColon rest

/-- Model of `Ipv6Addr::to_ipv4_mapped`: segments of the form
`::ffff:a.b.c.d`. -/
def toIpv4Mapped (segs : List Nat) : Option (Nat × Nat × Nat × Nat) :=
  match segs with
  | [0, 0, 0, 0, 0, 65535, g, h] => some (g / 256, g % 256, h / 256, h % 256)
  | _ => none

/-- Model of `Display for Ipv6Addr`: IPv4-mapped addresses print as
`::ffff:a.b.c.d`; otherwise the first longest run of two or more zero
segments is compressed to `::`; otherwise all eight segments print in
lowercase hex. -/
def ipv6Chars (segs : List Nat) : List Char :=
  match toIpv4Mapped segs with
  | some (a, b, c, d) =>
    ':' :: ':' :: 'f' :: 'f' :: 'f' :: 'f' :: ':' :: ipv4Chars a b c d
  | none =>
    let z := zeroRun segs
    if 1 < z.len then
      joinColon ((segs.take z.start).map hexChars) ++
        ':' :: ':' :: joinColon ((segs.drop (z.start + z.len)).map hexChars)
    else
      joinColon (segs.map hexChars)

/-- Model of `Display for IpAddr` (what `format!("https://{}", ip)`
interpolates). -/
def ipDisplay : IpAddr → String
  | .v4 a b c d => (ipv4Chars a b c d).asString
  | .v6 segs => (ipv6Chars segs).asString

example : parseIpAddr "210.140.131.145" = some (.v4 210 140 131 145) := by decide
example : parseIpAddr "invalid_ip" = none := by decide
example : parseIpAddr "" = none := by decide
example : parseIpAddr "app-api.pixiv.net" = none := by decide
example : parseIpAddr "::1" = some (.v6 [0, 0, 0, 0, 0, 0, 0, 1]) := by decide
example : parseIpAddr "0:0:0:0:0:0:0:1" = some (.v6 [0, 0, 0, 0, 0, 0, 0, 1]) := by
  decide
example : parseIpAddr "2001:db8::ff00:42:8329" =
    some (.v6 [8193, 3512, 0, 0, 0, 65280, 66, 33577]) := by decide
example : parseIpAddr "1.2.3.04" = none := by decide
example : parseIpAddr "256.1.1.1" = none := by decide
example : parseIpAddr "1.2.3.4.5" = none := by decide
example : parseIpAddr ":::" = none := by decide
example : parseIpAddr "::ffff:1.2.3.4" =
    some (.v6 [0, 0, 0, 0, 0, 65535, 258, 772]) := by decide
example : ipDisplay (.v6 [0, 0, 0, 0, 0, 0, 0, 1]) = "::1" := by decide
example : ipDisplay (.v6 [0, 0, 0, 0, 0, 65535, 258, 772]) = "::ffff:1.2.3.4" := by
  decide
example : ipDisplay (.v4 210 140 131 145) = "210.140.131.145" := by decide
example : ipDisplay (.v6 [8193, 3512, 0, 0, 0, 65280, 66, 33577]) =
    "2001:db8::ff00:42:8329" := by decide

/-! ## Errors (`src/error.rs`)

Only the variants the transport layer can produce are modelled.  The
`reqwest::Error` payload of `RequestError` is modelled as a message
string. -/

inductive NetworkError where
  | RequestError (msg : String)
  | Timeout
  | InvalidUrl (msg : String)
deriving DecidableEq, Repr

inductive PixivError where
  | NetworkError (e : NetworkError)
  | AuthError (msg : String)
  | ApiError (msg : String)
  | JsonError (msg : String)
  | Unknown (msg : String)
deriving DecidableEq, Repr

/-- `std::net::SocketAddr`: an IP address and a port. -/
structure SocketAddr where
  ip : IpAddr
  port : Nat
deriving DecidableEq, Repr

/-! ## Model of the configured `reqwest::Client`

`reqwest::ClientBuilder` configuration that the repository sets:
`user_agent`, `danger_accept_invalid_certs`, and `resolve` (the
documented per-hostname DNS override: requests whose URL names an
overridden hostname connect to the stored socket address; any other
hostname is resolved through system DNS). -/

structure ReqwestClient where
  userAgent : Option String
  acceptInvalidCerts : Bool
  resolveOverrides : List (String × SocketAddr)
deriving DecidableEq, Repr

/-- Where a connection for the given URL hostname goes, per the
documented semantics of `reqwest::ClientBuilder::resolve`: the override
entry if the hostname has one, otherwise (`none`) system DNS. -/
def ReqwestClient.connectTarget (c : ReqwestClient) (host : String) :
    Option SocketAddr :=
  (c.resolveOverrides.find? (fun e => e.1 = host)).map (fun e => e.2)

/-! ## HTTP requests and responses

`send_request` in both transports is the composition of a pure request
builder, the network round trip (abstracted as a function from request
to response), and a pure status check.  A request body is modelled as
the already-serialized JSON text that `RequestBuilder::json` would
produce. -/

/-- An outgoing HTTP request as assembled by `RequestBuilder`: headers
accumulate in insertion order. -/
structure Request where
  method : String
  url : String
  headers : List (String × String)
  body : Option String
deriving DecidableEq, Repr

/-- `RequestBuilder::json`: sets the body and, when no `Content-Type`
header is present yet, adds `Content-Type: application/json`. -/
def Request.withJson (r : Request) (b : String) : Request :=
  { r with
    headers :=
      if (r.headers.find? (fun e => e.1 = "Content-Type")).isSome then r.headers
      else r.headers ++ [("Content-Type", "application/json")],
    body := some b }

/-- An HTTP response.  `textResult` is the outcome of
`Response::text()`: `none` models a body-read failure. -/
structure Response where
  status : Nat
  headers : List (String × String)
  textResult : Option String
deriving DecidableEq, Repr

/-- `StatusCode::is_success` from the `http` crate: 200–299. -/
def statusIsSuccess (s : Nat) : Bool :=
  decide (200 ≤ s ∧ s < 300)

/-- `StatusCode::canonical_reason` from the `http` crate, restricted to
the codes exercised here; other codes fall back to the
`<unknown status code>` placeholder exactly as `Display for StatusCode`
does. -/
def canonicalReason (s : Nat) : String :=
  if s = 200 then "OK"
  else if s = 201 then "Created"
  else if s = 204 then "No Content"
  else if s = 400 then "Bad Request"
  else if s = 401 then "Unauthorized"
  else if s = 403 then "Forbidden"
  else if s = 404 then "Not Found"
  else if s = 429 then "Too Many Requests"
  else if s = 500 then "Internal Server Error"
  else if s = 502 then "Bad Gateway"
  else if s = 503 then "Service Unavailable"
  else "<unknown status code>"

/-- `Display for StatusCode`: the numeric code, a space, and the
canonical reason phrase. -/
def statusDisplay (s : Nat) : String :=
  Nat.repr s ++ " " ++ canonicalReason s

/-! ## `BypassSniClient` (`src/network/bypass_sni.rs`) -/

/-- The canonical API hostname hard-coded in `bypass_sni.rs`. -/
def canonicalHost : String := "app-api.pixiv.net"

structure BypassSniClient where
  client : ReqwestClient
  access_token : Option String
  refresh_token : Option String
  base_url : String
  ip : IpAddr
deriving DecidableEq, Repr

namespace BypassSniClient

/-- `BypassSniClient::new`: parse the textual IP (failing with
`NetworkError::InvalidUrl` on non-IP input), then build a client with
certificate validation disabled and a single DNS override mapping the
canonical hostname to the IP on port 443, and record
`https://<ip>` as the base URL. -/
def new (ipText : String) : Except PixivError BypassSniClient :=
  match parseIpAddr ipText with
  | none =>
    .error (.NetworkError (.InvalidUrl ("Invalid IP address: " ++ ipText)))
  | some ip =>
    let socketAddr : SocketAddr := { ip := ip, port := 443 }
    let client : ReqwestClient :=
      { userAgent := none
        acceptInvalidCerts := true
        resolveOverrides := [(canonicalHost, socketAddr)] }
    .ok
      { client := client
        access_token := none
        refresh_token := none
        base_url := "https://" ++ ipDisplay ip
        ip := ip }

/-- `BypassSniClient::set_access_token`. -/
def set_access_token (c : BypassSniClient) (token : String) : BypassSniClient :=
  { c with access_token := some token }

/-- `BypassSniClient::set_refresh_token`. -/
def set_refresh_token (c : BypassSniClient) (token : String) : BypassSniClient :=
  { c with refresh_token := some token }

/-- `BypassSniClient::set_base_url`. -/
def set_base_url (c : BypassSniClient) (url : String) : BypassSniClient :=
  { c with base_url := url }

/-- The request-building part of `BypassSniClient::send_request`: start
from the method and URL, insert the `Host: app-api.pixiv.net` header,
add `Authorization: Bearer <token>` when an access token is set, and
attach the JSON body when one is supplied. -/
def buildRequest (c : BypassSniClient) (method url : String)
    (body : Option String) : Request :=
  let headers : List (String × String) := [("Host", canonicalHost)]
  let request : Request :=
    { method := method, url := url, headers := headers, body := none }
  let request :=
    match c.access_token with
    | some token =>
      { request with
        headers := request.headers ++ [("Authorization", "Bearer " ++ token)] }
    | none => request
  match body with
  | some b => request.withJson b
  | none => request

/-- The status-checking part of `BypassSniClient::send_request`: a
non-success status becomes `PixivError::ApiError` carrying the status
display and the best-effort body text (with the placeholder when the
body cannot be read); a success status returns the response
unchanged. -/
def checkResponse (response : Response) : Except PixivError Response :=
  if statusIsSuccess response.status = false then
    .error (.ApiError ("API request failed: " ++ statusDisplay response.status
      ++ " - "
      ++ response.textResult.getD "Failed to get error information"))
  else .ok response

/-- `BypassSniClient::send_request` with the network round trip
abstracted as `net`: build the request, send it, check the response. -/
def send_request (c : BypassSniClient) (method url : String)
    (body : Option String) (net : Request → Response) :
    Except PixivError Response :=
  checkResponse (net (buildRequest c method url body))

/-- `BypassSniClient::get`: `send_request` with method GET and no
body. -/
def get (c : BypassSniClient) (url : String) (net : Request → Response) :
    Except PixivError Response :=
  c.send_request "GET" url none net

/-- `BypassSniClient::post`: `send_request` with method POST and a
body. -/
def post (c : BypassSniClient) (url : String) (body : String)
    (net : Request → Response) : Except PixivError Response :=
  c.send_request "POST" url (some body) net

end BypassSniClient

/-! ## `HttpClient` (`src/network/mod.rs`) -/

structure HttpClient where
  client : ReqwestClient
  access_token : Option String
  refresh_token : Option String
  base_url : String
deriving DecidableEq, Repr

namespace HttpClient

/-- `HttpClient::new`: a plain client with a user agent, no certificate
bypass, no DNS overrides, and the canonical base URL. -/
def new : Except PixivError HttpClient :=
  .ok
    { client :=
        { userAgent := some "PixivRustClient/0.1.0"
          acceptInvalidCerts := false
          resolveOverrides := [] }
      access_token := none
      refresh_token := none
      base_url := "https://app-api.pixiv.net" }

/-- `HttpClient::set_access_token`. -/
def set_access_token (c : HttpClient) (token : String) : HttpClient :=
  { c with access_token := some token }

/-- `HttpClient::set_refresh_token`. -/
def set_refresh_token (c : HttpClient) (token : String) : HttpClient :=
  { c with refresh_token := some token }

/-- `HttpClient::set_base_url`. -/
def set_base_url (c : HttpClient) (url : String) : HttpClient :=
  { c with base_url := url }

/-- The request-building part of `HttpClient::send_request`: no `Host`
header is inserted; otherwise identical to the bypass builder. -/
def buildRequest (c : HttpClient) (method url : String)
    (body : Option String) : Request :=
  let request : Request :=
    { method := method, url := url, headers := [], body := none }
  let request :=
    match c.access_token with
    | some token =>
      { request with
        headers := request.headers ++ [("Authorization", "Bearer " ++ token)] }
    | none => request
  match body with
  | some b => request.withJson b
  | none => request

/-- The status-checking part of `HttpClient::send_request` (textually
identical in the source to the bypass variant). -/
def checkResponse (response : Response) : Except PixivError Response :=
  if statusIsSuccess response.status = false then
    .error (.ApiError ("API request failed: " ++ statusDisplay response.status
      ++ " - "
      ++ response.textResult.getD "Failed to get error information"))
  else .ok response

/-- `HttpClient::send_request` with the round trip abstracted. -/
def send_request (c : HttpClient) (method url : String)
    (body : Option String) (net : Request → Response) :
    Except PixivError Response :=
  checkResponse (net (buildRequest c method url body))

/-- `HttpClient::get`. -/
def get (c : HttpClient) (url : String) (net : Request → Response) :
    Except PixivError Response :=
  c.send_request "GET" url none net

/-- `HttpClient::post`. -/
def post (c : HttpClient) (url : String) (body : String)
    (net : Request → Response) : Except PixivError Response :=
  c.send_request "POST" url (some body) net

end HttpClient

/-! ## Model of the `md5` crate (RFC 1321)

`generate_security_headers` calls `md5::compute` on the UTF-8 bytes of
the hash input string and formats the 16-byte digest with `{:x}`.
32-bit machine arithmetic is modelled on `Nat` with explicit reduction
modulo `2^32`. -/

/-- Addition modulo `2^32`. -/
def add32 (x y : Nat) : Nat := (x + y) % 4294967296

/-- Bitwise complement of a 32-bit word. -/
def not32 (x : Nat) : Nat := Nat.xor x 4294967295

/-- Left rotation of a 32-bit word by `n` bits. -/
def rotl32 (x n : Nat) : Nat := (x * 2 ^ n + x / 2 ^ (32 - n)) % 4294967296

/-- The 64 sine-derived MD5 round constants. -/
def md5K : List Nat :=
  [0xd76aa478, 0xe8c7b756, 0x242070db, 0xc1bdceee,
   0xf57c0faf, 0x4787c62a, 0xa8304613, 0xfd469501,
   0x698098d8, 0x8b44f7af, 0xffff5bb1, 0x895cd7be,
   0x6b901122, 0xfd987193, 0xa679438e, 0x49b40821,
   0xf61e2562, 0xc040b340, 0x265e5a51, 0xe9b6c7aa,
   0xd62f105d, 0x02441453, 0xd8a1e681, 0xe7d3fbc8,
   0x21e1cde6, 0xc33707d6, 0xf4d50d87, 0x455a14ed,
   0xa9e3e905, 0xfcefa3f8, 0x676f02d9, 0x8d2a4c8a,
   0xfffa3942, 0x8771f681, 0x6d9d6122, 0xfde5380c,
   0xa4beea44, 0x4bdecfa9, 0xf6bb4b60, 0xbebfbc70,
   0x289b7ec6, 0xeaa127fa, 0xd4ef3085, 0x04881d05,
   0xd9d4d039, 0xe6db99e5, 0x1fa27cf8, 0xc4ac5665,
   0xf4292244, 0x432aff97, 0xab9423a7, 0xfc93a039,
   0x655b59c3, 0x8f0ccc92, 0xffeff47d, 0x85845dd1,
   0x6fa87e4f, 0xfe2ce6e0, 0xa3014314, 0x4e0811a1,
   0xf7537e82, 0xbd3af235, 0x2ad7d2bb, 0xeb86d391]

/-- The 64 MD5 per-round left-rotation amounts. -/
def md5Shifts : List Nat :=
  [7, 12, 17, 22, 7, 12, 17, 22, 7, 12, 17, 22, 7, 12, 17, 22,
   5, 9, 14, 20, 5, 9, 14, 20, 5, 9, 14, 20, 5, 9, 14, 20,
   4, 11, 16, 23, 4, 11, 16, 23, 4, 11, 16, 23, 4, 11, 16, 23,
   6, 10, 15, 21, 6, 10, 15, 21, 6, 10, 15, 21, 6, 10, 15, 21]

/-- The nonlinear function of MD5 round `i`. -/
def md5F (i b c d : Nat) : Nat :=
  if i < 16 then Nat.lor (Nat.land b c) (Nat.land (not32 b) d)
  else if i < 32 then Nat.lor (Nat.land d b) (Nat.land (not32 d) c)
  else if i < 48 then Nat.xor b (Nat.xor c d)
  else Nat.xor c (Nat.lor b (not32 d))

/-- The message-word index used by MD5 round `i`. -/
def md5G (i : Nat) : Nat :=
  if i < 16 then i
  else if i < 32 then (5 * i + 1) % 16
  else if i < 48 then (3 * i + 5) % 16
  else (7 * i) % 16

/-- The four bytes of a 32-bit word, least significant first. -/
def leBytes4 (x : Nat) : List Nat :=
  [x % 256, x / 256 % 256, x / 65536 % 256, x / 16777216 % 256]

/-- Little-endian 32-bit word `g` of a 64-byte chunk. -/
def leWord (chunk : List Nat) (g : Nat) : Nat :=
  chunk.getD (4 * g) 0 + 256 * chunk.getD (4 * g + 1) 0 +
    65536 * chunk.getD (4 * g + 2) 0 + 16777216 * chunk.getD (4 * g + 3) 0

/-- One MD5 round applied to the running `(a, b, c, d)` state. -/
def md5Round (chunk : List Nat) (st : Nat × Nat × Nat × Nat) (i : Nat) :
    Nat × Nat × Nat × Nat :=
  match st with
  | (a, b, c, d) =>
    let f := add32 (add32 (add32 (md5F i b c d) a) (md5K.getD i 0))
      (leWord chunk (md5G i))
    (d, add32 b (rotl32 f (md5Shifts.getD i 0)), b, c)

/-- Process one 64-byte chunk: 64 rounds, then add the chunk result to
the incoming state. -/
def md5ProcessChunk (state : Nat × Nat × Nat × Nat) (chunk : List Nat) :
    Nat × Nat × Nat × Nat :=
  match state, (List.range 64).foldl (md5Round chunk) state with
  | (a0, b0, c0, d0), (a, b, c, d) =>
    (add32 a0 a, add32 b0 b, add32 c0 c, add32 d0 d)

/-- MD5 padding: a `0x80` byte, zeros up to 56 bytes modulo 64, then
the original bit length as a little-endian 64-bit value. -/
def md5Pad (msg : List Nat) : List Nat :=
  let len := msg.length
  let zeros := (119 - len % 64) % 64
  msg ++ 128 :: List.replicate zeros 0 ++
    (leBytes4 (len * 8 % 4294967296) ++ leBytes4 (len * 8 / 4294967296 % 4294967296))

/-- Split a byte list into 64-byte chunks.  The first argument is
recursion fuel; `xs.length` is always enough since every step consumes
at least one element of a nonempty list. -/
def chunks64Aux : Nat → List Nat → List (List Nat)
  | 0, _ => []
  | _, [] => []
  | fuel + 1, x :: xs => ((x :: xs).take 64) :: chunks64Aux fuel ((x :: xs).drop 64)

/-- Split a byte list into 64-byte chunks. -/
def chunks64 (xs : List Nat) : List (List Nat) :=
  chunks64Aux xs.length xs

/-- The MD5 initial state. -/
def md5Init : Nat × Nat × Nat × Nat :=
  (0x67452301, 0xefcdab89, 0x98badcfe, 0x10325476)

/-- The 16-byte MD5 digest of a byte sequence. -/
def md5Digest (msg : List Nat) : List Nat :=
  match (chunks64 (md5Pad msg)).foldl md5ProcessChunk md5Init with
  | (a, b, c, d) => leBytes4 a ++ leBytes4 b ++ leBytes4 c ++ leBytes4 d

/-- Two lowercase hex digits of a byte (`{:x}` on an `md5::Digest`
prints each byte this way). -/
def byteHex (b : Nat) : List Char :=
  [Nat.digitChar (b / 16 % 16), Nat.digitChar (b % 16)]

/-- The lowercase hex rendering of the MD5 digest of a byte sequence,
as produced by `format!("{:x}", md5::compute(..))`. -/
def md5Hex (msg : List Nat) : String :=
  ((md5Digest msg).map byteHex).flatten.asString

/-- UTF-8 encoding of one character (what Rust `str::as_bytes` exposes
per `char`). -/
def charUtf8 (c : Char) : List Nat :=
  let n := c.toNat
  if n < 128 then [n]
  else if n < 2048 then [192 + n / 64, 128 + n % 64]
  else if n < 65536 then [224 + n / 4096, 128 + n / 64 % 64, 128 + n % 64]
  else [240 + n / 262144, 128 + n / 4096 % 64, 128 + n / 64 % 64, 128 + n % 64]

/-- The UTF-8 bytes of a string. -/
def strBytes (s : String) : List Nat :=
  (s.data.map charUtf8).flatten

/-- MD5 hex digest of a string's UTF-8 bytes. -/
def md5HexOfString (s : String) : String :=
  md5Hex (strBytes s)

example : md5HexOfString "" = "d41d8cd98f00b204e9800998ecf8427e" := by decide
example : md5HexOfString "abc" = "900150983cd24fb0d6963f7d28e17f72" := by decide

/-! ## Security headers

`generate_security_headers` (identical in `HttpClient` and
`BypassSniClient`) reads `chrono::Utc::now()`, formats it with
`"%Y-%m-%dT%H:%M:%S+00:00"`, and hashes the timestamp concatenated with
the embedded secret.  The wall clock is the one effect; it is passed in
explicitly as a `UtcTime`, so each embedded generator is a function of
the clock reading (and, vacuously, of the client it is invoked on). -/

/-- A UTC wall-clock reading at second precision, as the calendar
fields `chrono` formatting consumes. -/
structure UtcTime where
  year : Nat
  month : Nat
  day : Nat
  hour : Nat
  minute : Nat
  second : Nat
deriving DecidableEq, Repr

/-- `chrono` zero-padded two-digit numeric field (`%m`, `%d`, `%H`,
`%M`, `%S`): values of 100 or more print in full. -/
def pad2 (n : Nat) : List Char :=
  if n < 100 then [Nat.digitChar (n / 10), Nat.digitChar (n % 10)]
  else (Nat.repr n).data

/-- `chrono` zero-padded four-digit year field (`%Y`): years of 10000
or more print in full. -/
def pad4 (n : Nat) : List Char :=
  if n < 10000 then
    [Nat.digitChar (n / 1000), Nat.digitChar (n / 100 % 10),
      Nat.digitChar (n / 10 % 10), Nat.digitChar (n % 10)]
  else (Nat.repr n).data

/-- `Utc::now().format("%Y-%m-%dT%H:%M:%S+00:00").to_string()`. -/
def formatClientTime (t : UtcTime) : String :=
  (pad4 t.year ++ '-' :: pad2 t.month ++ '-' :: pad2 t.day ++
    'T' :: pad2 t.hour ++ ':' :: pad2 t.minute ++ ':' :: pad2 t.second).asString
    ++ "+00:00"

/-- The fixed shared-secret string embedded in both
`generate_security_headers` bodies. -/
def hashSecret : String :=
  "28c1fdd170a5204386cb1313c7077b34f83e4aaf4aa829ce78c231e05b0bae2c"

/-- `BypassSniClient::generate_security_headers`, with the
`Utc::now()` reading passed in as `now`.  The resulting map is the
insertion-ordered pair of entries. -/
def BypassSniClient.generate_security_headers (_c : BypassSniClient)
    (now : UtcTime) : List (String × String) :=
  let local_time := formatClientTime now
  let hash_input := local_time ++ hashSecret
  let hash := md5HexOfString hash_input
  [("x-client-time", local_time), ("x-client-hash", hash)]

/-- `HttpClient::generate_security_headers` (textually identical body
in the source). -/
def HttpClient.generate_security_headers (_c : HttpClient)
    (now : UtcTime) : List (String × String) :=
  let local_time := formatClientTime now
  let hash_input := local_time ++ hashSecret
  let hash := md5HexOfString hash_input
  [("x-client-time", local_time), ("x-client-hash", hash)]

example :
    formatClientTime { year := 2026, month := 10, day := 12, hour := 3,
                       minute := 4, second := 5 } =
      "2026-10-12T03:04:05+00:00" := by decide

/-! ## Auxiliary predicates and sample values used by the theorems -/

/-- A clock reading with calendar fields in the ranges `Utc::now()` can
actually produce (four-digit year, valid month/day/hour/minute/second).
Leap seconds do not arise: `chrono`'s `Utc::now()` reports 0–59. -/
def ValidTime (t : UtcTime) : Prop :=
  t.year < 10000 ∧ 1 ≤ t.month ∧ t.month ≤ 12 ∧ 1 ≤ t.day ∧ t.day ≤ 31 ∧
    t.hour < 24 ∧ t.minute < 60 ∧ t.second < 60

instance (t : UtcTime) : Decidable (ValidTime t) := by
  unfold ValidTime; infer_instance

/-- ASCII decimal digit test. -/
def isAsciiDigit (c : Char) : Bool :=
  decide ('0' ≤ c ∧ c ≤ '9')

/-- The character-class pattern `YYYY-MM-DDTHH:MM:SS+00:00`: `none` is
a decimal digit position, `some c` a literal character. -/
def clientTimePattern : List (Option Char) :=
  [none, none, none, none, some '-', none, none, some '-', none, none,
   some 'T', none, none, some ':', none, none, some ':', none, none,
   some '+', some '0', some '0', some ':', some '0', some '0']

/-- Whether a string matches `YYYY-MM-DDTHH:MM:SS+00:00`. -/
def matchesClientTimePattern (s : String) : Bool :=
  s.data.length == clientTimePattern.length &&
    (List.zipWith
      (fun c pc =>
        match pc with
        | some l => c == l
        | none => isAsciiDigit c)
      s.data clientTimePattern).all id

example : matchesClientTimePattern "2026-10-12T03:04:05+00:00" = true := by decide
example : matchesClientTimePattern "2026-10-12 03:04:05" = false := by decide

/-- A concrete wall-clock reading used to instantiate theorems. -/
def sampleTime : UtcTime :=
  { year := 2026, month := 10, day := 12, hour := 3, minute := 4, second := 5 }

/-- The transport that `BypassSniClient::new("210.140.131.145")`
constructs, written out as a literal record (used to instantiate
theorems at a concrete input). -/
def sampleBypassClient : BypassSniClient :=
  { client :=
      { userAgent := none
        acceptInvalidCerts := true
        resolveOverrides :=
          [(canonicalHost, { ip := .v4 210 140 131 145, port := 443 })] }
    access_token := none
    refresh_token := none
    base_url := "https://210.140.131.145"
    ip := .v4 210 140 131 145 }

example : BypassSniClient.new "210.140.131.145" = .ok sampleBypassClient := by
  decide

/-- The client that `HttpClient::new()` constructs, as a literal
record. -/
def sampleHttpClient : HttpClient :=
  { client :=
      { userAgent := some "PixivRustClient/0.1.0"
        acceptInvalidCerts := false
        resolveOverrides := [] }
    access_token := none
    refresh_token := none
    base_url := "https://app-api.pixiv.net" }

example : HttpClient.new = .ok sampleHttpClient := by decide

/-! ## Claim theorems -/

/-- C1: for every input string that parses as an IPv4 or IPv6 literal,
`BypassSniClient::new` returns `Ok` with a constructed transport; for
every input string that does not parse as an IP literal it returns the
invalid-address error.  The embedded constructor is a pure function of
the input string, so the failure occurs synchronously at construction,
before any network activity. -/
theorem C1_construction (s : String) :
    ((parseIpAddr s).isSome = true → ∃ c, BypassSniClient.new s = .ok c) ∧
    ((parseIpAddr s).isSome = false →
      BypassSniClient.new s =
        .error (.NetworkError (.InvalidUrl ("Invalid IP address: " ++ s)))) := by
  constructor
  · intro h
    match hp : parseIpAddr s with
    | some ip =>
      refine ⟨⟨⟨none, true, [(canonicalHost, ⟨ip, 443⟩)]⟩, none, none,
        "https://" ++ ipDisplay ip, ip⟩, ?_⟩
      unfold BypassSniClient.new
      rw [hp]
    | none => simp [hp] at h
  · intro h
    match hp : parseIpAddr s with
    | some ip => simp [hp] at h
    | none => simp [BypassSniClient.new, hp]

/-- Witness for C1: construction succeeds on the IPv4 literal
`210.140.131.145` and fails with the invalid-address error on
`invalid_ip`. -/
theorem C1_construction_witness :
    (∃ c, BypassSniClient.new "210.140.131.145" = .ok c) ∧
    BypassSniClient.new "invalid_ip" =
      .error (.NetworkError
        (.InvalidUrl ("Invalid IP address: " ++ "invalid_ip"))) :=
  ⟨(C1_construction "210.140.131.145").1 (by decide),
   (C1_construction "invalid_ip").2 (by decide)⟩

/-- C2: every request built by `BypassSniClient::send_request` carries
the `Host` header set to the canonical API hostname
`app-api.pixiv.net`, for every client state (hence every construction
IP), method, URL, and body. -/
theorem C2_host_header (c : BypassSniClient) (method url : String)
    (body : Option String) :
    (c.buildRequest method url body).headers.find? (fun e => e.1 = "Host") =
      some ("Host", canonicalHost) := by
  cases htok : c.access_token <;> cases body <;>
    simp [BypassSniClient.buildRequest, htok, Request.withJson, List.find?,
      canonicalHost]

/-- C3 counterexample: the transport constructed from
`210.140.131.145` resolves the hostname `example.com` through system
DNS (no override applies), not to the pinned `210.140.131.145:443`, so
a request whose URL names a hostname other than the canonical one does
not connect to the construction IP. -/
theorem C3_counterexample :
    (BypassSniClient.new "210.140.131.145").map
        (fun c => c.client.connectTarget "example.com") = .ok none ∧
    (none : Option SocketAddr) ≠
      some { ip := .v4 210 140 131 145, port := 443 } := by
  constructor
  · decide
  · decide

/-- C3 (amended): successful construction installs exactly one
hostname-resolution override, mapping the canonical API hostname to the
construction IP on port 443; requests whose URL names the canonical
hostname connect to that socket address, while any other hostname falls
back to system DNS; the override is installed at construction and no
mutator changes the underlying client afterwards. -/
theorem C3_resolution_override (s : String) (c : BypassSniClient)
    (h : BypassSniClient.new s = .ok c) :
    c.client.resolveOverrides = [(canonicalHost, { ip := c.ip, port := 443 })] ∧
    c.client.connectTarget canonicalHost = some { ip := c.ip, port := 443 } ∧
    (∀ host, host ≠ canonicalHost → c.client.connectTarget host = none) ∧
    (∀ t, (c.set_access_token t).client = c.client) ∧
    (∀ t, (c.set_refresh_token t).client = c.client) ∧
    (∀ u, (c.set_base_url u).client = c.client) := by
  match hp : parseIpAddr s with
  | none => simp [BypassSniClient.new, hp] at h
  | some ip =>
    simp only [BypassSniClient.new, hp, Except.ok.injEq] at h
    subst h
    refine ⟨rfl, rfl, ?_, fun t => rfl, fun t => rfl, fun u => rfl⟩
    intro host hne
    simp [ReqwestClient.connectTarget, List.find?, hne.symm]

/-- Witness for C3 (amended): the transport built from
`210.140.131.145` maps the canonical hostname to
`210.140.131.145:443`. -/
theorem C3_resolution_override_witness :
    sampleBypassClient.client.connectTarget canonicalHost =
      some { ip := .v4 210 140 131 145, port := 443 } :=
  (C3_resolution_override "210.140.131.145" sampleBypassClient
    (by decide)).2.1

/-- C5: the built request carries `Authorization: Bearer <token>`
exactly when an access token is set (and with the token most recently
set); a freshly constructed transport has no access token, so no
`Authorization` header is present. -/
theorem C5_authorization (c : BypassSniClient) (method url : String)
    (body : Option String) :
    ((c.buildRequest method url body).headers.find?
        (fun e => e.1 = "Authorization") =
      c.access_token.map (fun t => ("Authorization", "Bearer " ++ t))) ∧
    (∀ t, (c.set_access_token t).access_token = some t) ∧
    (∀ s, BypassSniClient.new s = .ok c → c.access_token = none) := by
  refine ⟨?_, fun t => rfl, ?_⟩
  · cases htok : c.access_token <;> cases body <;>
      simp [BypassSniClient.buildRequest, htok, Request.withJson, List.find?,
        canonicalHost]
  · intro s h
    match hp : parseIpAddr s with
    | none => simp [BypassSniClient.new, hp] at h
    | some ip =>
      simp only [BypassSniClient.new, hp, Except.ok.injEq] at h
      subst h
      rfl

/-- Witness for C5: after setting a token on the sample transport the
built request carries `Authorization: Bearer token-two`, and the
transport constructed from `210.140.131.145` has no access token. -/
theorem C5_authorization_witness :
    ((sampleBypassClient.set_access_token "token-two").buildRequest "GET"
        "https://app-api.pixiv.net/v1/user/detail" none).headers.find?
        (fun e => e.1 = "Authorization") =
      some ("Authorization", "Bearer " ++ "token-two") ∧
    sampleBypassClient.access_token = none :=
  ⟨(C5_authorization (sampleBypassClient.set_access_token "token-two") "GET"
      "https://app-api.pixiv.net/v1/user/detail" none).1,
   (C5_authorization sampleBypassClient "GET"
      "https://app-api.pixiv.net/v1/user/detail" none).2.2
      "210.140.131.145" (by decide)⟩

/-- C9: each mutator touches only its own field, on both transports:
`set_access_token` changes only `access_token`, `set_refresh_token`
only `refresh_token`, `set_base_url` only `base_url`; the underlying
client (and for the bypass transport the recorded IP) is never
touched. -/
theorem C9_mutator_frame (c : BypassSniClient) (hc : HttpClient)
    (t : String) :
    (c.set_access_token t).access_token = some t ∧
    (c.set_access_token t).refresh_token = c.refresh_token ∧
    (c.set_access_token t).base_url = c.base_url ∧
    (c.set_access_token t).ip = c.ip ∧
    (c.set_access_token t).client = c.client ∧
    (c.set_refresh_token t).refresh_token = some t ∧
    (c.set_refresh_token t).access_token = c.access_token ∧
    (c.set_refresh_token t).base_url = c.base_url ∧
    (c.set_refresh_token t).ip = c.ip ∧
    (c.set_refresh_token t).client = c.client ∧
    (c.set_base_url t).base_url = t ∧
    (c.set_base_url t).access_token = c.access_token ∧
    (c.set_base_url t).refresh_token = c.refresh_token ∧
    (c.set_base_url t).ip = c.ip ∧
    (c.set_base_url t).client = c.client ∧
    (hc.set_access_token t).access_token = some t ∧
    (hc.set_access_token t).refresh_token = hc.refresh_token ∧
    (hc.set_access_token t).base_url = hc.base_url ∧
    (hc.set_access_token t).client = hc.client ∧
    (hc.set_refresh_token t).refresh_token = some t ∧
    (hc.set_refresh_token t).access_token = hc.access_token ∧
    (hc.set_refresh_token t).base_url = hc.base_url ∧
    (hc.set_refresh_token t).client = hc.client ∧
    (hc.set_base_url t).base_url = t ∧
    (hc.set_base_url t).access_token = hc.access_token ∧
    (hc.set_base_url t).refresh_token = hc.refresh_token ∧
    (hc.set_base_url t).client = hc.client := by
  repeat' apply And.intro
  all_goals rfl

/-- C10: the security-header generator is independent of all transport
state: any two clients of either transport type produce identical
header lists at the same wall-clock reading. -/
theorem C10_generator_state_independence (b1 b2 : BypassSniClient)
    (h1 h2 : HttpClient) (now : UtcTime) :
    b1.generate_security_headers now = b2.generate_security_headers now ∧
    h1.generate_security_headers now = h2.generate_security_headers now ∧
    b1.generate_security_headers now = h1.generate_security_headers now :=
  ⟨rfl, rfl, rfl⟩

/-- C4: for every completed round trip, `send_request` returns `Ok`
with the unmodified response exactly when the status is 200–299;
otherwise it returns an `ApiError` whose message starts with the
numeric status (via the status display) and ends with the response body
text, with the placeholder substituted when the body text cannot be
read.  The bypass and standard status checks are the same function, and
`send_request` is the status check applied to the round-trip
response. -/
theorem C4_status_handling (r : Response) :
    (BypassSniClient.checkResponse r = .ok r ↔
      200 ≤ r.status ∧ r.status < 300) ∧
    (¬(200 ≤ r.status ∧ r.status < 300) →
      BypassSniClient.checkResponse r =
        .error (.ApiError ("API request failed: " ++ statusDisplay r.status ++
          " - " ++ r.textResult.getD "Failed to get error information"))) ∧
    (statusDisplay r.status = Nat.repr r.status ++ " " ++ canonicalReason r.status) ∧
    (HttpClient.checkResponse r = BypassSniClient.checkResponse r) ∧
    (∀ (c : BypassSniClient) (method url : String) (body : Option String)
        (net : Request → Response),
      c.send_request method url body net =
        BypassSniClient.checkResponse (net (c.buildRequest method url body))) := by
  refine ⟨?_, ?_, rfl, rfl, fun c method url body net => rfl⟩
  · unfold BypassSniClient.checkResponse statusIsSuccess
    by_cases hs : 200 ≤ r.status ∧ r.status < 300
    · simp [hs]
    · simp [hs]
  · intro hs
    unfold BypassSniClient.checkResponse statusIsSuccess
    simp [hs]

/-- Witness for C4: a 404 response with body `{}` is rejected with an
`ApiError` carrying the status and body, and a 200 response comes back
unchanged. -/
theorem C4_status_handling_witness :
    BypassSniClient.checkResponse
        { status := 404, headers := [], textResult := some "{}" } =
      .error (.ApiError ("API request failed: " ++ statusDisplay 404 ++
        " - " ++ (some "{}").getD "Failed to get error information")) ∧
    BypassSniClient.checkResponse
        { status := 200, headers := [], textResult := some "ok" } =
      .ok { status := 200, headers := [], textResult := some "ok" } :=
  ⟨(C4_status_handling
      { status := 404, headers := [], textResult := some "{}" }).2.1
      (by decide),
   (C4_status_handling
      { status := 200, headers := [], textResult := some "ok" }).1.mpr
      (by decide)⟩

/-- C7: with equal token state, the bypass and standard `send_request`
build the same request except that the bypass transport additionally
places the `Host` header first; the two status checks are the same
function; and the `get`/`post` wrappers delegate identically, so a
response-level behaviour `net` observed through one transport is
observed through the other after accounting only for the extra `Host`
header. -/
theorem C7_transport_equivalence (b : BypassSniClient) (h : HttpClient)
    (htok : b.access_token = h.access_token) (method url : String)
    (body : Option String) :
    (b.buildRequest method url body =
      { h.buildRequest method url body with
        headers := ("Host", canonicalHost) ::
          (h.buildRequest method url body).headers }) ∧
    (∀ r, BypassSniClient.checkResponse r = HttpClient.checkResponse r) ∧
    (∀ net, b.send_request method url body net =
      h.send_request method url body
        (fun r => net { r with headers := ("Host", canonicalHost) :: r.headers })) ∧
    (∀ net, b.get url net = b.send_request "GET" url none net) ∧
    (∀ net, h.get url net = h.send_request "GET" url none net) ∧
    (∀ bod net, b.post url bod net = b.send_request "POST" url (some bod) net) ∧
    (∀ bod net, h.post url bod net = h.send_request "POST" url (some bod) net) := by
  have hbuild : b.buildRequest method url body =
      { h.buildRequest method url body with
        headers := ("Host", canonicalHost) ::
          (h.buildRequest method url body).headers } := by
    unfold BypassSniClient.buildRequest HttpClient.buildRequest
    rw [htok]
    cases h.access_token <;> cases body <;>
      simp [Request.withJson, List.find?]
  refine ⟨hbuild, fun r => rfl, ?_, fun net => rfl, fun net => rfl,
    fun bod net => rfl, fun bod net => rfl⟩
  intro net
  unfold BypassSniClient.send_request HttpClient.send_request
  rw [hbuild]
  rfl

/-- Witness for C7: at equal (empty) token state, the sample bypass
transport's GET request is the standard transport's GET request plus
the `Host` header. -/
theorem C7_transport_equivalence_witness :
    sampleBypassClient.buildRequest "GET"
        "https://app-api.pixiv.net/v1/illust/detail" none =
      { sampleHttpClient.buildRequest "GET"
          "https://app-api.pixiv.net/v1/illust/detail" none with
        headers := ("Host", canonicalHost) ::
          (sampleHttpClient.buildRequest "GET"
            "https://app-api.pixiv.net/v1/illust/detail" none).headers } :=
  (C7_transport_equivalence sampleBypassClient sampleHttpClient (by decide)
    "GET" "https://app-api.pixiv.net/v1/illust/detail" none).1

/-- The rendering of a decimal digit is an ASCII digit. -/
theorem isAsciiDigit_digitChar : ∀ n < 10, isAsciiDigit (Nat.digitChar n) = true := by
  decide

/-- `Nat.digitChar` is injective on decimal digits. -/
theorem digitChar_inj :
    ∀ a < 10, ∀ b < 10, Nat.digitChar a = Nat.digitChar b → a = b := by
  decide

/-- On valid clock readings the formatted timestamp matches
`YYYY-MM-DDTHH:MM:SS+00:00`. -/
theorem formatClientTime_pattern (t : UtcTime) (h : ValidTime t) :
    matchesClientTimePattern (formatClientTime t) = true := by
  obtain ⟨hy, hm1, hm2, hd1, hd2, hh, hmi, hs⟩ := h
  unfold formatClientTime pad4 pad2
  rw [if_pos hy, if_pos (show t.month < 100 by omega),
    if_pos (show t.day < 100 by omega), if_pos (show t.hour < 100 by omega),
    if_pos (show t.minute < 100 by omega), if_pos (show t.second < 100 by omega)]
  simp only [matchesClientTimePattern, clientTimePattern, List.asString,
    String.data_append, List.cons_append, List.nil_append, List.zipWith,
    List.all_cons, List.all_nil, id, Bool.and_eq_true, beq_iff_eq,
    List.length_cons, List.length_nil]
  refine ⟨by decide, ?_⟩
  repeat' apply And.intro
  all_goals first
    | trivial
    | (apply isAsciiDigit_digitChar; omega)

/-- On valid clock readings the formatter is injective: distinct
readings give distinct `x-client-time` values. -/
theorem formatClientTime_inj (t1 t2 : UtcTime) (h1 : ValidTime t1)
    (h2 : ValidTime t2) (heq : formatClientTime t1 = formatClientTime t2) :
    t1 = t2 := by
  obtain ⟨y1, mo1, d1, hr1, mi1, s1⟩ := t1
  obtain ⟨y2, mo2, d2, hr2, mi2, s2⟩ := t2
  obtain ⟨hy1, hm11, hm12, hd11, hd12, hh1, hmi1, hs1⟩ := h1
  obtain ⟨hy2, hm21, hm22, hd21, hd22, hh2, hmi2, hs2⟩ := h2
  simp only at hy1 hm11 hm12 hd11 hd12 hh1 hmi1 hs1
  simp only at hy2 hm21 hm22 hd21 hd22 hh2 hmi2 hs2
  have hdata := congrArg String.data heq
  unfold formatClientTime pad4 pad2 at hdata
  rw [if_pos hy1, if_pos hy2, if_pos (show mo1 < 100 by omega),
    if_pos (show mo2 < 100 by omega), if_pos (show d1 < 100 by omega),
    if_pos (show d2 < 100 by omega), if_pos (show hr1 < 100 by omega),
    if_pos (show hr2 < 100 by omega), if_pos (show mi1 < 100 by omega),
    if_pos (show mi2 < 100 by omega), if_pos (show s1 < 100 by omega),
    if_pos (show s2 < 100 by omega)] at hdata
  simp only [List.asString, String.data_append, List.cons_append,
    List.nil_append, List.cons.injEq, and_true, true_and] at hdata
  obtain ⟨e1, e2, e3, e4, e5, e6, e7, e8, e9, e10, e11, e12, e13, e14⟩ := hdata
  have q1 := digitChar_inj _ (by omega) _ (by omega) e1
  have q2 := digitChar_inj _ (by omega) _ (by omega) e2
  have q3 := digitChar_inj _ (by omega) _ (by omega) e3
  have q4 := digitChar_inj _ (by omega) _ (by omega) e4
  have q5 := digitChar_inj _ (by omega) _ (by omega) e5
  have q6 := digitChar_inj _ (by omega) _ (by omega) e6
  have q7 := digitChar_inj _ (by omega) _ (by omega) e7
  have q8 := digitChar_inj _ (by omega) _ (by omega) e8
  have q9 := digitChar_inj _ (by omega) _ (by omega) e9
  have q10 := digitChar_inj _ (by omega) _ (by omega) e10
  have q11 := digitChar_inj _ (by omega) _ (by omega) e11
  have q12 := digitChar_inj _ (by omega) _ (by omega) e12
  have q13 := digitChar_inj _ (by omega) _ (by omega) e13
  have q14 := digitChar_inj _ (by omega) _ (by omega) e14
  simp only [UtcTime.mk.injEq]
  omega

/-- The hex digest rendering always has 32 characters. -/
theorem md5Hex_length (msg : List Nat) : (md5Hex msg).length = 32 := by
  unfold md5Hex md5Digest
  set st := (chunks64 (md5Pad msg)).foldl md5ProcessChunk md5Init with hst
  obtain ⟨a, b, c, d⟩ := st
  simp [leBytes4, byteHex, List.asString, String.length]

/-- C6: every generated security-header set is the two-entry map with
`x-client-time` the wall-clock reading formatted as
`YYYY-MM-DDTHH:MM:SS+00:00` and `x-client-hash` the 32-character hex
digest of the hash of exactly the timestamp string concatenated with
the embedded shared secret; both entries are non-empty, and the pair is
recomputed from the clock on every call (distinct valid clock readings
give distinct timestamp entries, so nothing is memoized). -/
theorem C6_security_headers (c : BypassSniClient) (now : UtcTime)
    (h : ValidTime now) :
    c.generate_security_headers now =
      [("x-client-time", formatClientTime now),
       ("x-client-hash", md5HexOfString (formatClientTime now ++ hashSecret))] ∧
    matchesClientTimePattern (formatClientTime now) = true ∧
    formatClientTime now ≠ "" ∧
    (md5HexOfString (formatClientTime now ++ hashSecret)).length = 32 ∧
    md5HexOfString (formatClientTime now ++ hashSecret) ≠ "" ∧
    (∀ now2, ValidTime now2 → now ≠ now2 →
      formatClientTime now ≠ formatClientTime now2) := by
  have hpat := formatClientTime_pattern now h
  have hlen : (md5HexOfString (formatClientTime now ++ hashSecret)).length = 32 :=
    md5Hex_length _
  refine ⟨rfl, hpat, ?_, hlen, ?_, ?_⟩
  · intro he
    rw [he] at hpat
    exact absurd hpat (by decide)
  · intro he
    rw [he] at hlen
    exact absurd hlen (by decide)
  · intro now2 hv2 hne he
    exact hne (formatClientTime_inj now now2 h hv2 he)

/-- Witness for C6 at the clock reading 2026-10-12T03:04:05Z on the
sample transport. -/
theorem C6_security_headers_witness :
    sampleBypassClient.generate_security_headers sampleTime =
      [("x-client-time", formatClientTime sampleTime),
       ("x-client-hash",
        md5HexOfString (formatClientTime sampleTime ++ hashSecret))] ∧
    matchesClientTimePattern (formatClientTime sampleTime) = true ∧
    formatClientTime sampleTime ≠ "" :=
  ⟨(C6_security_headers sampleBypassClient sampleTime (by decide)).1,
   (C6_security_headers sampleBypassClient sampleTime (by decide)).2.1,
   (C6_security_headers sampleBypassClient sampleTime (by decide)).2.2.1⟩

/-- Reduction helper for the final range check inside `to_digit`. -/
theorem digitValue_match_some {radix v : Nat} :
    ∀ o : Option Nat,
      (match o with
        | some w => if w < radix then some w else none
        | none => none) = some v → o = some v ∧ v < radix := by
  intro o ho
  match o with
  | none => cases ho
  | some w =>
    simp only at ho
    split at ho
    · rename_i hlt
      cases ho
      exact ⟨rfl, hlt⟩
    · cases ho

/-- A successful `to_digit` result is below the radix. -/
theorem digitValue_lt {radix : Nat} {c : Char} {v : Nat}
    (h : digitValue radix c = some v) : v < radix :=
  (digitValue_match_some _ h).2

/-- At radix 10 a successful `to_digit` comes from the ASCII-digit
branch. -/
theorem digitValue10_cases {c : Char} {v : Nat}
    (h : digitValue 10 c = some v) :
    ('0' ≤ c ∧ c ≤ '9' ∧ v = c.toNat - '0'.toNat) ∨ 10 ≤ v := by
  have h2 : (if '0' ≤ c ∧ c ≤ '9' then some (c.toNat - '0'.toNat)
      else if 'a' ≤ c ∧ c ≤ 'z' then some (c.toNat - 'a'.toNat + 10)
      else if 'A' ≤ c ∧ c ≤ 'Z' then some (c.toNat - 'A'.toNat + 10)
      else none) = some v := (digitValue_match_some _ h).1
  by_cases hA : '0' ≤ c ∧ c ≤ '9'
  · rw [if_pos hA] at h2
    cases h2
    exact Or.inl ⟨hA.1, hA.2, rfl⟩
  · rw [if_neg hA] at h2
    by_cases hB : 'a' ≤ c ∧ c ≤ 'z'
    · rw [if_pos hB] at h2
      cases h2
      exact Or.inr (by omega)
    · rw [if_neg hB] at h2
      by_cases hC : 'A' ≤ c ∧ c ≤ 'Z'
      · rw [if_pos hC] at h2
        cases h2
        exact Or.inr (by omega)
      · rw [if_neg hC] at h2
        cases h2

/-- Decimal digits render via `Nat.digitChar` as `'0' + v`. -/
theorem digitChar_eq_ofNat : ∀ v < 10, Nat.digitChar v = Char.ofNat (v + 48) := by
  decide

/-- `Char.le` transfers to `toNat`. -/
theorem charLe_toNat {a b : Char} (h : a ≤ b) : a.toNat ≤ b.toNat := by
  simpa [Char.le_def, UInt32.le_def, BitVec.le_def] using h

/-- Reading a decimal digit value back through `Nat.digitChar` restores
the original character. -/
theorem digitValue10_digitChar {c : Char} {v : Nat}
    (h : digitValue 10 c = some v) : Nat.digitChar v = c := by
  have hv10 : v < 10 := digitValue_lt h
  rcases digitValue10_cases h with ⟨hc1, hc2, rfl⟩ | hge
  · have b1 : (48 : Nat) ≤ c.toNat := charLe_toNat hc1
    have b2 : c.toNat ≤ 57 := charLe_toNat hc2
    have h0 : '0'.toNat = 48 := rfl
    rw [h0]
    rw [digitChar_eq_ofNat _ (by omega)]
    have hc : c.toNat - 48 + 48 = c.toNat := by omega
    rw [hc, Char.ofNat_toNat]
  · omega

/-- Characterization of the `u8` digit loop of `read_number`: on
success the consumed characters are decimal digits that fold to the
returned value, the digit budget is respected, and reading stopped at
the end of input or at a non-digit. -/
theorem readNumberLoop_dec_spec (cs : List Char) :
    ∀ acc count n cnt rest, acc ≤ 255 → count ≤ 3 →
      readNumberLoop 10 255 3 cs acc count = some (n, cnt, rest) →
      ∃ ds : List Char,
        cs = ds ++ rest ∧
        cnt = count + ds.length ∧ n ≤ 255 ∧ cnt ≤ 3 ∧
        n = ds.foldl (fun a c => a * 10 + (digitValue 10 c).getD 0) acc ∧
        (∀ x ∈ ds, (digitValue 10 x).isSome = true) ∧
        (∀ x, rest.head? = some x → digitValue 10 x = none) := by
  induction cs with
  | nil =>
    intro acc count n cnt rest hacc hcount h
    simp only [readNumberLoop, Option.some.injEq, Prod.mk.injEq] at h
    obtain ⟨rfl, rfl, rfl⟩ := h
    exact ⟨[], by simp, by simp, hacc, hcount, by simp, by simp, by simp⟩
  | cons c cs ih =>
    intro acc count n cnt rest hacc hcount h
    cases hd : digitValue 10 c with
    | none =>
      simp only [readNumberLoop, hd, Option.some.injEq, Prod.mk.injEq] at h
      obtain ⟨rfl, rfl, rfl⟩ := h
      refine ⟨[], by simp, by simp, hacc, hcount, by simp, by simp, ?_⟩
      intro x hx
      simp only [List.head?_cons, Option.some.injEq] at hx
      subst hx
      exact hd
    | some d =>
      simp only [readNumberLoop, hd] at h
      split at h
      · cases h
      · split at h
        · cases h
        · split at h
          · cases h
          · have hd10 : d < 10 := digitValue_lt hd
            have hacc2 : acc * 10 + d ≤ 255 := by omega
            have hcount2 : count + 1 ≤ 3 := by omega
            obtain ⟨ds, hcs, hcnt, hn, hcnt3, hfold, hdig, hrest⟩ :=
              ih (acc * 10 + d) (count + 1) n cnt rest hacc2 hcount2 h
            refine ⟨c :: ds, by simp [hcs], ?_, hn, hcnt3, ?_, ?_, hrest⟩
            · simp only [List.length_cons]
              omega
            · simp only [List.foldl_cons, hd, Option.getD_some]
              exact hfold
            · intro x hx
              rcases List.mem_cons.mp hx with rfl | hx
              · simp [hd]
              · exact hdig x hx

/-- The canonical-decimal characterization of a successful `u8`
`read_number`: the consumed characters are exactly the decimal
rendering of the returned value. -/
theorem readNumber_dec_canonical (cs : List Char) (n : Nat) (rest : List Char)
    (h : readNumber 10 255 3 false cs = some (n, rest)) :
    n ≤ 255 ∧ cs = decChars n ++ rest := by
  cases hl : readNumberLoop 10 255 3 cs 0 0 with
  | none =>
    simp only [readNumber, hl] at h
    cases h
  | some t =>
    obtain ⟨m, count, rest2⟩ := t
    simp only [readNumber, hl] at h
    split at h
    · cases h
    · split at h
      · cases h
      · rename_i hcount0 hzero
        simp only [Option.some.injEq, Prod.mk.injEq] at h
        obtain ⟨hn2, hrest2⟩ := h
        rw [← hn2, ← hrest2]
        obtain ⟨ds, hcs, hcnt, hn255, hcnt3, hfold, hdig, hstop⟩ :=
          readNumberLoop_dec_spec cs 0 0 m count rest2 (by omega) (by omega) hl
        simp only [Nat.zero_add] at hcnt
        refine ⟨hn255, ?_⟩
        rcases ds with _ | ⟨c1, _ | ⟨c2, _ | ⟨c3, _ | ⟨c4, tail⟩⟩⟩⟩
        · exact absurd (by simpa using hcnt) hcount0
        · obtain ⟨v1, hv1⟩ := Option.isSome_iff_exists.mp (hdig c1 (by simp))
          have hv1lt : v1 < 10 := digitValue_lt hv1
          have hm : m = v1 := by
            simp only [List.foldl_cons, List.foldl_nil, hv1, Option.getD_some] at hfold
            omega
          rw [hcs]
          unfold decChars
          rw [if_pos (show m < 10 by omega)]
          rw [hm, digitValue10_digitChar hv1]
        · obtain ⟨v1, hv1⟩ := Option.isSome_iff_exists.mp (hdig c1 (by simp))
          obtain ⟨v2, hv2⟩ := Option.isSome_iff_exists.mp (hdig c2 (by simp))
          have hv1lt : v1 < 10 := digitValue_lt hv1
          have hv2lt : v2 < 10 := digitValue_lt hv2
          have hm : m = v1 * 10 + v2 := by
            simp only [List.foldl_cons, List.foldl_nil, hv1, hv2,
              Option.getD_some] at hfold
            omega
          have hcount2 : count = 2 := by simpa using hcnt
          have hc1 : c1 ≠ '0' := by
            intro hc
            apply hzero
            refine ⟨trivial, ?_, by omega⟩
            rw [hcs]
            simp [hc]
          have hv1ne : v1 ≠ 0 := by
            intro hv
            exact hc1 (by rw [← digitValue10_digitChar hv1, hv]; rfl)
          rw [hcs]
          unfold decChars
          rw [if_neg (show ¬m < 10 by omega), if_pos (show m < 100 by omega)]
          have e1 : m / 10 = v1 := by omega
          have e2 : m % 10 = v2 := by omega
          rw [e1, e2, digitValue10_digitChar hv1, digitValue10_digitChar hv2]
        · obtain ⟨v1, hv1⟩ := Option.isSome_iff_exists.mp (hdig c1 (by simp))
          obtain ⟨v2, hv2⟩ := Option.isSome_iff_exists.mp (hdig c2 (by simp))
          obtain ⟨v3, hv3⟩ := Option.isSome_iff_exists.mp (hdig c3 (by simp))
          have hv1lt : v1 < 10 := digitValue_lt hv1
          have hv2lt : v2 < 10 := digitValue_lt hv2
          have hv3lt : v3 < 10 := digitValue_lt hv3
          have hm : m = (v1 * 10 + v2) * 10 + v3 := by
            simp only [List.foldl_cons, List.foldl_nil, hv1, hv2, hv3,
              Option.getD_some] at hfold
            omega
          have hcount3 : count = 3 := by simpa using hcnt
          have hc1 : c1 ≠ '0' := by
            intro hc
            apply hzero
            refine ⟨trivial, ?_, by omega⟩
            rw [hcs]
            simp [hc]
          have hv1ne : v1 ≠ 0 := by
            intro hv
            exact hc1 (by rw [← digitValue10_digitChar hv1, hv]; rfl)
          rw [hcs]
          unfold decChars
          rw [if_neg (show ¬m < 10 by omega), if_neg (show ¬m < 100 by omega)]
          have e1 : m / 100 = v1 := by omega
          have e2 : m / 10 % 10 = v2 := by omega
          have e3 : m % 10 = v3 := by omega
          rw [e1, e2, e3, digitValue10_digitChar hv1, digitValue10_digitChar hv2,
            digitValue10_digitChar hv3]
        · exfalso
          simp only [List.length_cons] at hcnt
          omega

/-- A successful separator-prefixed read consumed the separator. -/
theorem readSeparator_true_spec {α : Type} {sep : Char}
    {inner : List Char → Option (α × List Char)} {cs : List Char}
    {v : α} {rest : List Char}
    (h : readSeparator sep true inner cs = some (v, rest)) :
    ∃ cs2, cs = sep :: cs2 ∧ inner cs2 = some (v, rest) := by
  unfold readSeparator at h
  match cs with
  | [] => cases h
  | c :: cs2 =>
    simp only [if_pos] at h
    split at h
    · rename_i hceq
      exact ⟨cs2, by rw [hceq], h⟩
    · cases h

/-- A successful IPv4 read consumed exactly the dotted-decimal
rendering of the four octets. -/
theorem readIpv4_chars {cs : List Char} {a b c d : Nat} {rest : List Char}
    (h : readIpv4 cs = some ((a, b, c, d), rest)) :
    a ≤ 255 ∧ b ≤ 255 ∧ c ≤ 255 ∧ d ≤ 255 ∧
      cs = ipv4Chars a b c d ++ rest := by
  rcases h1 : readSeparator '.' false (readNumber 10 255 3 false) cs with _ | ⟨a2, cs1⟩
  · simp only [readIpv4, h1] at h
    cases h
  · simp only [readIpv4, h1] at h
    rcases h2 : readSeparator '.' true (readNumber 10 255 3 false) cs1 with _ | ⟨b2, cs2⟩
    · simp only [h2] at h
      cases h
    · simp only [h2] at h
      rcases h3 : readSeparator '.' true (readNumber 10 255 3 false) cs2 with _ | ⟨c2, cs3⟩
      · simp only [h3] at h
        cases h
      · simp only [h3] at h
        rcases h4 : readSeparator '.' true (readNumber 10 255 3 false) cs3 with _ | ⟨d2, cs4⟩
        · simp only [h4] at h
          cases h
        · simp only [h4, Option.some.injEq, Prod.mk.injEq] at h
          obtain ⟨⟨rfl, rfl, rfl, rfl⟩, rfl⟩ := h
          obtain ⟨ha255, hacs⟩ := readNumber_dec_canonical _ _ _ h1
          obtain ⟨t2, ht2, hb⟩ := readSeparator_true_spec h2
          obtain ⟨hb255, hbcs⟩ := readNumber_dec_canonical _ _ _ hb
          obtain ⟨t3, ht3, hc⟩ := readSeparator_true_spec h3
          obtain ⟨hc255, hccs⟩ := readNumber_dec_canonical _ _ _ hc
          obtain ⟨t4, ht4, hd⟩ := readSeparator_true_spec h4
          obtain ⟨hd255, hdcs⟩ := readNumber_dec_canonical _ _ _ hd
          refine ⟨ha255, hb255, hc255, hd255, ?_⟩
          rw [hacs, ht2, hbcs, ht3, hccs, ht4, hdcs]
          simp [ipv4Chars]

/-- C8 counterexample: constructing from the (valid, non-canonical)
IPv6 literal `0:0:0:0:0:0:0:1` records the base URL `https://::1`,
the canonical rendering of the parsed address, not `https://` followed
by the literal supplied at construction. -/
theorem C8_counterexample :
    (BypassSniClient.new "0:0:0:0:0:0:0:1").map (fun c => c.base_url) =
      .ok "https://::1" ∧
    "https://::1" ≠ "https://" ++ "0:0:0:0:0:0:0:1" := by
  constructor
  · decide
  · decide

/-- C8 (amended): after successful construction, `base_url()` is
`https://` followed by the `Display` rendering of the parsed IP.  For
IPv4 inputs this equals the literal string supplied at construction
(until `set_base_url` is called); for IPv6 inputs it is the canonical
compressed rendering, which can differ from the supplied literal. -/
theorem C8_base_url (s : String) (c : BypassSniClient)
    (h : BypassSniClient.new s = .ok c) :
    c.base_url = "https://" ++ ipDisplay c.ip ∧
    (∀ a b d e, c.ip = .v4 a b d e → c.base_url = "https://" ++ s) ∧
    (∀ u, (c.set_base_url u).base_url = u) := by
  match hp : parseIpAddr s with
  | none => simp [BypassSniClient.new, hp] at h
  | some ip =>
    simp only [BypassSniClient.new, hp, Except.ok.injEq] at h
    subst h
    refine ⟨rfl, ?_, fun u => rfl⟩
    intro a b d e hip
    simp only at hip
    subst hip
    simp only
    have hs : s.data = ipv4Chars a b d e := by
      unfold parseIpAddr at hp
      rcases h4 : readIpv4 s.data with _ | ⟨⟨a2, b2, d2, e2⟩, rest⟩
      · rw [readIpAddr, h4] at hp
        rcases h6 : readIpv6 s.data with _ | ⟨segs, rest6⟩
        · rw [h6] at hp
          cases hp
        · rw [h6] at hp
          rcases rest6 with _ | ⟨x, xs⟩
          · cases hp
          · cases hp
      · rw [readIpAddr, h4] at hp
        rcases rest with _ | ⟨x, xs⟩
        · simp only [Option.some.injEq, IpAddr.v4.injEq] at hp
          obtain ⟨rfl, rfl, rfl, rfl⟩ := hp
          have := (readIpv4_chars h4).2.2.2.2
          simpa using this
        · cases hp
    show "https://" ++ ipDisplay (.v4 a b d e) = "https://" ++ s
    congr 1
    show (ipv4Chars a b d e).asString = s
    rw [← hs]
    cases s
    rfl

/-- Witness for C8 (amended): the transport built from the IPv4
literal `210.140.131.145` reports base URL
`https://210.140.131.145`. -/
theorem C8_base_url_witness :
    sampleBypassClient.base_url = "https://" ++ "210.140.131.145" :=
  (C8_base_url "210.140.131.145" sampleBypassClient (by decide)).2.1
    210 140 131 145 rfl

end PixivRs
